import Mathlib

set_option maxHeartbeats 1000000

/-! Shallow embedding of nettui (src/main.rs): per-interface network
counter sampling, rate computation, ranking, rate formatting, and the
render/input loop with its terminal lifecycle. Machine floats (f64) are
modelled by an extended-rational type `FVal` with NaN and signed
infinities; u64 counters are modelled by Nat. -/

/-- Model of an f64 value: NaN, a signed infinity, or a finite rational.
`inf true` is positive infinity, `inf false` is negative infinity. -/
inductive FVal where
  | nan : FVal
  | inf : Bool → FVal
  | fin : ℚ → FVal
  deriving DecidableEq

/-- Total comparison of two rationals as an `Ordering` (Rust `Ord` on
finite floats). -/
def ordQ (a b : ℚ) : Ordering :=
  if a < b then .lt else if b < a then .gt else .eq

/-- IEEE-754 `partial_cmp`: `none` exactly when an operand is NaN. -/
def fvCmpOpt : FVal → FVal → Option Ordering
  | .nan, _ => none
  | _, .nan => none
  | .inf s, .inf t => if s = t then some .eq else if t then some .lt else some .gt
  | .inf s, .fin _ => if s then some .gt else some .lt
  | .fin _, .inf t => if t then some .lt else some .gt
  | .fin a, .fin b => some (ordQ a b)

/-- IEEE `<` on f64: false whenever a NaN is involved. -/
def fvLt (a b : FVal) : Bool :=
  match fvCmpOpt a b with
  | some .lt => true
  | _ => false

/-- IEEE `>=` on f64: false whenever a NaN is involved. -/
def fvGe (a b : FVal) : Bool :=
  match fvCmpOpt a b with
  | some .gt => true
  | some .eq => true
  | _ => false

/-- IEEE addition (restricted to the value shapes the model uses). -/
def fvAdd : FVal → FVal → FVal
  | .nan, _ => .nan
  | _, .nan => .nan
  | .inf s, .inf t => if s = t then .inf s else .nan
  | .inf s, .fin _ => .inf s
  | .fin _, .inf t => .inf t
  | .fin a, .fin b => .fin (a + b)

/-- IEEE division by the positive constant 1024.0 (exact on the model). -/
def fvDiv1024 : FVal → FVal
  | .nan => .nan
  | .inf s => .inf s
  | .fin a => .fin (a / 1024)

/-- Round a rational to the nearest integer, ties to even (the rounding
used by Rust float formatting). -/
def roundHalfEven (q : ℚ) : ℤ :=
  if q - ⌊q⌋ < 1 / 2 then ⌊q⌋
  else if (1 : ℚ) / 2 < q - ⌊q⌋ then ⌊q⌋ + 1
  else if ⌊q⌋ % 2 = 0 then ⌊q⌋ else ⌊q⌋ + 1

/-- Rust `{:.0}` formatting of a finite value. -/
def fmtQ0 (q : ℚ) : String :=
  toString (roundHalfEven q)

/-- Rust `{:.1}` formatting of a finite nonnegative value. -/
def fmtQ1 (q : ℚ) : String :=
  toString (roundHalfEven (q * 10) / 10) ++ "." ++ toString (roundHalfEven (q * 10) % 10)

/-- Rust `{:.0}` formatting on f64: NaN prints as NaN, infinities as inf. -/
def fmtF0 : FVal → String
  | .nan => "NaN"
  | .inf s => if s then "inf" else "-inf"
  | .fin q => fmtQ0 q

/-- Rust `{:.1}` formatting on f64: NaN prints as NaN, infinities as inf. -/
def fmtF1 : FVal → String
  | .nan => "NaN"
  | .inf s => if s then "inf" else "-inf"
  | .fin q => fmtQ1 q

/-- The while loop of human_bps (src/main.rs lines 38-41): divide by 1024
while the value is at least 1024 and more units remain (the index bound is
units.len() - 1 = 2). -/
def ladder (v : FVal) (i : ℕ) : FVal × ℕ :=
  if h : fvGe v (.fin 1024) = true ∧ i < 2 then ladder (fvDiv1024 v) (i + 1)
  else (v, i)
termination_by 2 - i
decreasing_by
  obtain ⟨-, h2⟩ := h
  omega

/-- human_bps (src/main.rs lines 30-49): format a bytes/sec value with
unit escalation across KB/s, MB/s, GB/s. -/
def human_bps (bps : FVal) : String :=
  if fvLt bps (.fin 1) then "--"
  else if fvLt bps (.fin 1024) then fmtF0 bps ++ " B/s"
  else
    let p := ladder (fvDiv1024 bps) 0
    let u := ["KB/s", "MB/s", "GB/s"].getD p.2 ""
    if fvGe p.1 (.fin 100) then fmtF0 p.1 ++ " " ++ u
    else fmtF1 p.1 ++ " " ++ u

/-- Reference definition following the words of the spec (section 4.3):
0 decimal places when the scaled value is at least 100, otherwise 1. -/
def scaleFmt (v : ℚ) (u : String) : String :=
  if 100 ≤ v then fmtQ0 v ++ " " ++ u else fmtQ1 v ++ " " ++ u

/-- Reference definition of humanize following the words of the spec
(section 4.3): placeholder below 1, raw bytes below 1024, else divide up
the ladder KB/s, MB/s, GB/s, saturating at GB/s. Compared against the
source definition human_bps. -/
def humanize_spec (bps : ℚ) : String :=
  if bps < 1 then "--"
  else if bps < 1024 then fmtQ0 bps ++ " B/s"
  else if bps / 1024 < 1024 then scaleFmt (bps / 1024) "KB/s"
  else if bps / 1024 / 1024 < 1024 then scaleFmt (bps / 1024 / 1024) "MB/s"
  else scaleFmt (bps / 1024 / 1024 / 1024) "GB/s"

/-- Per-interface counters as exposed by the sysinfo collaborator:
received and transmitted are byte deltas since the previous refresh, the
packet and error counts are cumulative totals. -/
structure NetData where
  received : ℕ
  transmitted : ℕ
  packets_received : ℕ
  packets_transmitted : ℕ
  errors_on_received : ℕ
  errors_on_transmitted : ℕ
  deriving DecidableEq

/-- The counter-source snapshot: the enumerated interfaces with their
counters, as produced by the refresh inside collect. -/
abbrev Networks := List (String × NetData)

/-- RowData (src/main.rs lines 19-28). -/
structure RowData where
  interface : String
  rx_bps : FVal
  tx_bps : FVal
  packets_in : ℕ
  packets_out : ℕ
  errors_in : ℕ
  errors_out : ℕ
  deriving DecidableEq

/-- The virtual-interface name test of collect (src/main.rs lines 61-66). -/
def is_virtual (name : String) : Bool :=
  name.startsWith "lo" || name.startsWith "veth" || name.startsWith "docker"
    || name.startsWith "br-" || name.startsWith "vmnet" || name.startsWith "virbr"

/-- The row-building loop of collect (src/main.rs lines 58-87), over the
snapshot produced by the refresh on line 56. The skip branch is the
literal test of line 68. -/
def collectRowsAux (net : Networks) (interval : ℚ) : List RowData :=
  match net with
  | [] => []
  | (name, d) :: rest =>
    if !is_virtual name && is_virtual name then collectRowsAux rest interval
    else
      { interface := name
        rx_bps := .fin ((d.received : ℚ) / interval)
        tx_bps := .fin ((d.transmitted : ℚ) / interval)
        packets_in := d.packets_received
        packets_out := d.packets_transmitted
        errors_in := d.errors_on_received
        errors_out := d.errors_on_transmitted } :: collectRowsAux rest interval

/-- Combined throughput of a row, the sort key of collect. -/
def rowTot (r : RowData) : FVal :=
  fvAdd r.rx_bps r.tx_bps

/-- The comparator of rows.sort_by (src/main.rs lines 90-96):
b_total.partial_cmp(a_total).unwrap_or(Equal). -/
def cmpRows (a b : RowData) : Ordering :=
  (fvCmpOpt (rowTot b) (rowTot a)).getD .eq

/-- is_less as used by the standard-library stable sort. -/
def isLess (a b : RowData) : Bool :=
  match cmpRows a b with
  | .lt => true
  | _ => false

/-- One insertion step of the stable insertion sort run by rows.sort_by:
the new element x shifts left past each neighbour y, scanning from the
right, while is_less(x, y) holds, and stops at the first failure. -/
def insertR (x : RowData) (acc : List RowData) : List RowData :=
  (acc.reverse.dropWhile fun y => isLess x y).reverse
    ++ x :: (acc.reverse.takeWhile fun y => isLess x y).reverse

/-- The stable sort performed by rows.sort_by (src/main.rs lines 90-96). -/
def sortRows (l : List RowData) : List RowData :=
  l.foldl (fun acc x => insertR x acc) []

/-- collect (src/main.rs lines 51-100). The show_virtual parameter is
declared but unused, exactly as in the source. -/
def collect (net : Networks) (interval_secs : ℚ) (_show_virtual : Bool) : List RowData :=
  sortRows (collectRowsAux net (if interval_secs ≤ 0 then 1 else interval_secs))

/-- What one execution of the draw closure (src/main.rs lines 144-205)
renders: the header title text and the table cell texts. -/
structure Frame where
  title : String
  tableRows : List (List String)
  deriving DecidableEq

/-- The draw closure (src/main.rs lines 144-205) as the data it renders:
refresh_ms appears only inside the title text. -/
def renderFrame (refresh_ms : ℕ) (rows : List RowData) : Frame :=
  { title := " Nettui - live (q:quit  +/-:rate  i:virtual)   refresh: " ++ toString refresh_ms
      ++ " ms   ifaces: " ++ toString rows.length ++ " "
    tableRows := rows.map fun r =>
      [r.interface, human_bps r.rx_bps, human_bps r.tx_bps, toString r.packets_in,
        toString r.packets_out, toString r.errors_in, toString r.errors_out] }

/-- Result of the crossterm input poll of one tick (src/main.rs 132-138). -/
inductive Ev where
  | pollErr : Ev
  | readErr : Ev
  | key : Char → Ev
  | other : Ev
  | idle : Ev
  deriving DecidableEq

/-- Environment inputs of one loop iteration: the clock reading, the
counter snapshot the refresh inside collect yields, the poll result, and
whether terminal.draw succeeds. -/
structure TickIn where
  now : ℚ
  net : Networks
  ev : Ev
  drawOk : Bool
  deriving DecidableEq

/-- The mutable locals of main carried across iterations
(src/main.rs lines 114-116). -/
structure LoopSt where
  refresh_ms : ℕ
  show_virtual : Bool
  last : ℚ
  deriving DecidableEq

/-- How a run of the loop ended. -/
inductive Outcome where
  | quit : Outcome
  | err : Outcome
  | running : Outcome
  deriving DecidableEq

/-- Observable result of running main from after Init: how it ended,
whether the restoration sequence ran, the successful draws in order, the
final values of the mutable locals, and the elapsed value computed by
each sampled iteration. -/
structure RunRes where
  outcome : Outcome
  restored : Bool
  frames : List Frame
  finalSt : LoopSt
  elapsedLog : List ℚ
  deriving DecidableEq

/-- True for poll results that make the `?` operators of lines 132-133
propagate an error out of main. -/
def evErr : Ev → Bool
  | .pollErr => true
  | .readErr => true
  | _ => false

/-- True when the poll observed the quit key (line 134). -/
def evQuit : Ev → Bool
  | .key c => c == 'q'
  | _ => false

/-- The main loop (src/main.rs lines 121-206) driven by a trace of tick
inputs. Mirrors the source: elapsed is computed from st.last, which the
loop body never reassigns; iterations with elapsed <= 0 sleep and retry;
rows are computed before the poll but consumed only by the draw; on the
quit key the loop breaks before the refresh and the draw; a poll, read or
draw error propagates immediately via `?`. The recursive call passes st
unchanged because no key handler mutates refresh_ms or show_virtual and
last is never reassigned. -/
def runLoop (st : LoopSt) : List TickIn → RunRes
  | [] => ⟨.running, false, [], st, []⟩
  | t :: rest =>
    if t.now - st.last ≤ 0 then runLoop st rest
    else if evErr t.ev then ⟨.err, false, [], st, [t.now - st.last]⟩
    else if evQuit t.ev then ⟨.quit, false, [], st, [t.now - st.last]⟩
    else if t.drawOk then
      ⟨(runLoop st rest).outcome, (runLoop st rest).restored,
        renderFrame st.refresh_ms (collect t.net (t.now - st.last) st.show_virtual)
          :: (runLoop st rest).frames,
        (runLoop st rest).finalSt, (t.now - st.last) :: (runLoop st rest).elapsedLog⟩
    else ⟨.err, false, [], st, [t.now - st.last]⟩

/-- main from after a successful Init (src/main.rs lines 114-213): the
initial locals are refresh_ms = 500, show_virtual = false, last = t0; the
restoration sequence of lines 209-211 runs only when the loop ends by the
normal break, because an error returned through `?` leaves main first. -/
def runMain (t0 : ℚ) (ticks : List TickIn) : RunRes :=
  match (runLoop ⟨500, false, t0⟩ ticks).outcome with
  | .quit => { runLoop ⟨500, false, t0⟩ ticks with restored := true }
  | _ => runLoop ⟨500, false, t0⟩ ticks

/-- A row whose combined throughput is a finite value. -/
def finTot (r : RowData) : Prop :=
  ∃ q : ℚ, rowTot r = .fin q

/-- Descending order of combined throughput, as decided by the source
comparator: the total of the first row compares greater or equal. -/
def rowGe (a b : RowData) : Prop :=
  fvGe (rowTot a) (rowTot b) = true

lemma ladder_step {v : FVal} {i : ℕ} (h1 : fvGe v (.fin 1024) = true) (h2 : i < 2) :
    ladder v i = ladder (fvDiv1024 v) (i + 1) := by
  rw [ladder]
  exact dif_pos ⟨h1, h2⟩

lemma ladder_stop {v : FVal} {i : ℕ} (h : ¬(fvGe v (.fin 1024) = true ∧ i < 2)) :
    ladder v i = (v, i) := by
  rw [ladder]
  exact dif_neg h

lemma fvLt_fin (a b : ℚ) : fvLt (.fin a) (.fin b) = decide (a < b) := by
  have h : fvCmpOpt (.fin a) (.fin b) = some (ordQ a b) := rfl
  unfold fvLt
  rw [h]
  unfold ordQ
  split_ifs with h1 h2
  · simp [h1]
  · simp [h1]
  · simp [h1]

lemma fvGe_fin (a b : ℚ) : fvGe (.fin a) (.fin b) = decide (b ≤ a) := by
  have h : fvCmpOpt (.fin a) (.fin b) = some (ordQ a b) := rfl
  unfold fvGe
  rw [h]
  unfold ordQ
  split_ifs with h1 h2
  · simp [not_le.mpr h1]
  · simp [h2.le]
  · simp [le_of_not_lt h1]

lemma skip_test_false (b : Bool) : (!b && b) = false := by
  cases b <;> rfl

lemma mem_takeWhile_pred {α : Type} (p : α → Bool) (l : List α) (a : α)
    (h : a ∈ l.takeWhile p) : p a = true := by
  induction l with
  | nil => simp [List.takeWhile] at h
  | cons y ys ih =>
    rw [List.takeWhile_cons] at h
    split at h
    · rcases List.mem_cons.mp h with h' | h'
      · subst h'
        assumption
      · exact ih h'
    · simp at h

lemma dropWhile_head_false {α : Type} (p : α → Bool) (l : List α) (y : α) (ys : List α)
    (h : l.dropWhile p = y :: ys) : p y = false := by
  induction l with
  | nil => simp [List.dropWhile] at h
  | cons z zs ih =>
    rw [List.dropWhile_cons] at h
    split at h
    · exact ih h
    · cases h
      simp_all

lemma insertR_split (x : RowData) (acc : List RowData) :
    (acc.reverse.dropWhile fun y => isLess x y).reverse
      ++ (acc.reverse.takeWhile fun y => isLess x y).reverse = acc := by
  rw [← List.reverse_append, List.takeWhile_append_dropWhile, List.reverse_reverse]

lemma insertR_perm (x : RowData) (acc : List RowData) :
    (insertR x acc).Perm (x :: acc) := by
  unfold insertR
  refine List.perm_middle.trans ?_
  rw [insertR_split]

lemma sortRows_aux_perm (l acc : List RowData) :
    (l.foldl (fun acc x => insertR x acc) acc).Perm (l ++ acc) := by
  induction l generalizing acc with
  | nil => simp
  | cons x l ih =>
    simp only [List.foldl_cons, List.cons_append]
    exact (ih (insertR x acc)).trans
      ((List.Perm.append_left l (insertR_perm x acc)).trans List.perm_middle)

lemma sortRows_perm (l : List RowData) : (sortRows l).Perm l := by
  simpa using sortRows_aux_perm l []

lemma isLess_fin {a b : RowData} {qa qb : ℚ} (ha : rowTot a = .fin qa)
    (hb : rowTot b = .fin qb) : isLess a b = decide (qb < qa) := by
  unfold isLess cmpRows
  rw [ha, hb]
  have h : fvCmpOpt (FVal.fin qb) (FVal.fin qa) = some (ordQ qb qa) := rfl
  rw [h, Option.getD_some]
  unfold ordQ
  split_ifs with h1 h2
  · simp [h1]
  · simp [h1]
  · simp [h1]

lemma pairwise_insert_mid (x : RowData) (A B : List RowData)
    (hs : (A ++ B).Pairwise rowGe) (hxB : ∀ v ∈ B, rowGe x v)
    (hAx : ∀ u ∈ A, rowGe u x) : (A ++ x :: B).Pairwise rowGe := by
  rw [List.pairwise_append] at hs
  rw [List.pairwise_append, List.pairwise_cons]
  refine ⟨hs.1, ⟨hxB, hs.2.1⟩, ?_⟩
  intro u hu v hv
  rcases List.mem_cons.mp hv with rfl | hv'
  · exact hAx u hu
  · exact hs.2.2 u hu v hv'

lemma insertR_sorted (x : RowData) (acc : List RowData)
    (hx : finTot x) (hacc : ∀ r ∈ acc, finTot r)
    (hs : acc.Pairwise rowGe) : (insertR x acc).Pairwise rowGe := by
  obtain ⟨qx, hqx⟩ := hx
  have hsplit := insertR_split x acc
  apply pairwise_insert_mid
  · rw [hsplit]
    exact hs
  · intro v hv
    have hvmem : v ∈ acc := by
      rw [← hsplit]
      exact List.mem_append_right _ hv
    obtain ⟨qv, hqv⟩ := hacc v hvmem
    have hless : isLess x v = true := mem_takeWhile_pred _ _ v (List.mem_reverse.mp hv)
    rw [isLess_fin hqx hqv] at hless
    unfold rowGe
    rw [hqx, hqv, fvGe_fin]
    exact decide_eq_true (of_decide_eq_true hless).le
  · intro u hu
    cases hA : acc.reverse.dropWhile (fun y => isLess x y) with
    | nil =>
      rw [hA] at hu
      simp at hu
    | cons y0 A' =>
      rw [hA] at hu
      have hy0f : isLess x y0 = false := dropWhile_head_false _ acc.reverse y0 A' hA
      have hsplit' : (y0 :: A').reverse ++ (acc.reverse.takeWhile fun y => isLess x y).reverse
          = acc := by
        rw [← hA]
        exact hsplit
      have hmemA : ∀ w ∈ (y0 :: A').reverse, w ∈ acc := by
        intro w hw
        rw [← hsplit']
        exact List.mem_append_left _ hw
      obtain ⟨qy0, hqy0⟩ := hacc y0 (hmemA y0 (by simp))
      have hxy0 : qx ≤ qy0 := by
        rw [isLess_fin hqx hqy0] at hy0f
        exact le_of_not_lt (of_decide_eq_false hy0f)
      have hsA : ((y0 :: A').reverse).Pairwise rowGe := by
        have := hs
        rw [← hsplit', List.pairwise_append] at this
        exact this.1
      rw [List.reverse_cons] at hu
      rcases List.mem_append.mp hu with hu' | hu'
      · have hsA2 := hsA
        rw [List.reverse_cons, List.pairwise_append] at hsA2
        have huy0 : rowGe u y0 := hsA2.2.2 u hu' y0 (by simp)
        obtain ⟨qu, hqu⟩ := hacc u (hmemA u (by rw [List.reverse_cons]; exact List.mem_append_left _ hu'))
        unfold rowGe at huy0 ⊢
        rw [hqu, hqy0, fvGe_fin] at huy0
        rw [hqu, hqx, fvGe_fin]
        exact decide_eq_true (hxy0.trans (of_decide_eq_true huy0))
      · have huy : u = y0 := by simpa using hu'
        subst huy
        unfold rowGe
        rw [hqy0, hqx, fvGe_fin]
        exact decide_eq_true hxy0

lemma sortRows_sorted_aux (l : List RowData) :
    ∀ acc : List RowData, (∀ r ∈ l, finTot r) → (∀ r ∈ acc, finTot r) →
      acc.Pairwise rowGe →
      (l.foldl (fun acc x => insertR x acc) acc).Pairwise rowGe := by
  induction l with
  | nil =>
    intro acc _ _ hs
    simpa using hs
  | cons x l ih =>
    intro acc hl hacc hs
    simp only [List.foldl_cons]
    refine ih (insertR x acc) (fun r hr => hl r (List.mem_cons_of_mem _ hr)) (fun r hr => ?_)
      (insertR_sorted x acc (hl x (List.mem_cons_self x l)) hacc hs)
    rcases List.mem_cons.mp ((insertR_perm x acc).mem_iff.mp hr) with rfl | h'
    · exact hl r (List.mem_cons_self r l)
    · exact hacc r h'

lemma sortRows_sorted (l : List RowData) (hl : ∀ r ∈ l, finTot r) :
    (sortRows l).Pairwise rowGe :=
  sortRows_sorted_aux l [] hl (by simp) (by simp)

lemma collectRowsAux_map (net : Networks) (i : ℚ) :
    (collectRowsAux net i).map RowData.interface = net.map Prod.fst := by
  induction net with
  | nil => rfl
  | cons p rest ih =>
    obtain ⟨name, d⟩ := p
    simp [collectRowsAux, skip_test_false, ih]

lemma collectRowsAux_finTot (net : Networks) (i : ℚ) :
    ∀ r ∈ collectRowsAux net i, finTot r := by
  induction net with
  | nil =>
    intro r hr
    simp [collectRowsAux] at hr
  | cons p rest ih =>
    obtain ⟨name, d⟩ := p
    intro r hr
    simp only [collectRowsAux, skip_test_false, Bool.false_eq_true, if_false] at hr
    rcases List.mem_cons.mp hr with rfl | hr'
    · exact ⟨(d.received : ℚ) / i + (d.transmitted : ℚ) / i, rfl⟩
    · exact ih r hr'

lemma collectRowsAux_shape (net : Networks) (i : ℚ) (hi : 0 < i) :
    ∀ r ∈ collectRowsAux net i,
      (∃ a : ℚ, 0 ≤ a ∧ r.rx_bps = .fin a) ∧ (∃ b : ℚ, 0 ≤ b ∧ r.tx_bps = .fin b) := by
  induction net with
  | nil =>
    intro r hr
    simp [collectRowsAux] at hr
  | cons p rest ih =>
    obtain ⟨name, d⟩ := p
    intro r hr
    simp only [collectRowsAux, skip_test_false, Bool.false_eq_true, if_false] at hr
    rcases List.mem_cons.mp hr with rfl | hr'
    · exact ⟨⟨(d.received : ℚ) / i, div_nonneg (Nat.cast_nonneg _) hi.le, rfl⟩,
        ⟨(d.transmitted : ℚ) / i, div_nonneg (Nat.cast_nonneg _) hi.le, rfl⟩⟩
    · exact ih r hr'

lemma collect_interval_pos (e : ℚ) : 0 < (if e ≤ 0 then (1 : ℚ) else e) := by
  split_ifs with h
  · norm_num
  · exact not_le.mp h

lemma runLoop_restored_false (ticks : List TickIn) :
    ∀ st : LoopSt, (runLoop st ticks).restored = false := by
  induction ticks with
  | nil =>
    intro st
    rfl
  | cons t rest ih =>
    intro st
    rw [runLoop]
    split_ifs with h1 h2 h3 h4
    · exact ih st
    · rfl
    · rfl
    · exact ih st
    · rfl

lemma runLoop_finalSt (ticks : List TickIn) :
    ∀ st : LoopSt, (runLoop st ticks).finalSt = st := by
  induction ticks with
  | nil =>
    intro st
    rfl
  | cons t rest ih =>
    intro st
    rw [runLoop]
    split_ifs with h1 h2 h3 h4
    · exact ih st
    · rfl
    · rfl
    · exact ih st
    · rfl

/-- Claim C1, evaluated at the failing input: with Init at time 0 and
sampled ticks at times 1 and 3, the loop computes elapsed values 1 and
then 3, because the source never reassigns last inside the loop; the
claim (and the spec, Running step 6) predicts the second elapsed value to
be 3 - 1 = 2, the duration since the previous tick. -/
theorem C1_elapsed_measured_from_init :
    (runLoop ⟨500, false, 0⟩
      [⟨1, [], .idle, true⟩, ⟨3, [], .idle, true⟩]).elapsedLog = [1, 3] ∧
    (3 : ℚ) - 1 ≠ 3 := by
  constructor
  · norm_num [runLoop, evErr, evQuit]
  · norm_num

/-- Claim C2: the per-interface exclusion test of collect is
unsatisfiable, so the skip branch never fires and collect returns one row
per enumerated interface: for every counter-source state, elapsed value
and show_virtual flag, the interface names of the output are a
permutation of the enumerated interface names. -/
theorem C2_no_interface_dropped :
    (∀ name : String, (!is_virtual name && is_virtual name) = false) ∧
    ∀ (net : Networks) (e : ℚ) (sv : Bool),
      ((collect net e sv).map RowData.interface).Perm (net.map Prod.fst) := by
  constructor
  · intro name
    exact skip_test_false _
  · intro net e sv
    unfold collect
    refine ((sortRows_perm _).map RowData.interface).trans ?_
    rw [collectRowsAux_map]

/-- Claim C3 counterexample: a poll error at the first sampled tick makes
main exit with an error without running the terminal restoration
sequence, so not every exit path reachable after Init restores the
terminal. -/
theorem C3_poll_error_skips_restore :
    (runMain 0 [⟨1, [], .pollErr, true⟩]).outcome = Outcome.err ∧
    (runMain 0 [⟨1, [], .pollErr, true⟩]).restored = false := by
  constructor
  · norm_num [runMain, runLoop, evErr]
  · norm_num [runMain, runLoop, evErr]

/-- Claim C3 amended: the restoration sequence runs exactly when main
exits through the normal quit break; an error returned by the input poll
or the draw call leaves main through the question-mark operator without
restoring the terminal. -/
theorem C3_restore_iff_quit (t0 : ℚ) (ticks : List TickIn) :
    (runMain t0 ticks).restored = true ↔ (runMain t0 ticks).outcome = Outcome.quit := by
  unfold runMain
  cases ho : (runLoop ⟨500, false, t0⟩ ticks).outcome with
  | quit => simp [ho]
  | err => simp [ho, runLoop_restored_false]
  | running => simp [ho, runLoop_restored_false]

/-- Claim C4 counterexample: a quit key observed at the first sampled
tick ends the loop with no draw at all, although that iteration sampled
(its elapsed value was logged): quit skips the render of the current
tick instead of completing it. -/
theorem C4_quit_skips_current_render :
    (runLoop ⟨500, false, 0⟩ [⟨1, [], .key 'q', true⟩]).frames = [] ∧
    (runLoop ⟨500, false, 0⟩ [⟨1, [], .key 'q', true⟩]).outcome = Outcome.quit ∧
    (runLoop ⟨500, false, 0⟩ [⟨1, [], .key 'q', true⟩]).elapsedLog = [1] := by
  refine ⟨?_, ?_, ?_⟩ <;> norm_num [runLoop, evErr, evQuit]

/-- Claim C4 amended: when a sampled iteration observes the quit key, the
loop breaks immediately: that iteration computes its rows but renders no
frame, and the run ends as a quit with no further activity. -/
theorem C4_quit_breaks_before_draw (st : LoopSt) (t : TickIn) (rest : List TickIn)
    (h1 : ¬ t.now - st.last ≤ 0) (h2 : t.ev = Ev.key 'q') :
    runLoop st (t :: rest) = ⟨Outcome.quit, false, [], st, [t.now - st.last]⟩ := by
  rw [runLoop, if_neg h1, h2]
  rfl

/-- Witness for the amended Claim C4 at a concrete input. -/
theorem C4_quit_breaks_before_draw_witness :
    runLoop ⟨500, false, 0⟩ [⟨1, [], Ev.key 'q', true⟩]
      = ⟨Outcome.quit, false, [], ⟨500, false, 0⟩, [(1 : ℚ) - 0]⟩ :=
  C4_quit_breaks_before_draw ⟨500, false, 0⟩ ⟨1, [], Ev.key 'q', true⟩ [] (by norm_num) rfl

/-- Claim C5: on every finite input, human_bps equals the piecewise
reference definition written from the words of the spec: placeholder
below 1, zero-decimal byte count below 1024, then the KB/s, MB/s, GB/s
ladder saturating at GB/s, with 0 decimals at scaled values of at least
100 and 1 decimal otherwise. -/
theorem C5_human_bps_matches_spec (q : ℚ) : human_bps (.fin q) = humanize_spec q := by
  unfold human_bps humanize_spec
  rw [fvLt_fin, fvLt_fin]
  by_cases h1 : q < 1
  · simp [h1]
  · by_cases h2 : q < 1024
    · simp [h1, h2, fmtF0]
    · have hd : fvDiv1024 (FVal.fin q) = FVal.fin (q / 1024) := rfl
      by_cases h3 : q / 1024 < 1024
      · have hl : ladder (FVal.fin (q / 1024)) 0 = (FVal.fin (q / 1024), 0) := by
          apply ladder_stop
          rw [fvGe_fin]
          simp [not_le.mpr h3]
        simp [h1, h2, h3, hd, hl, fvGe_fin, scaleFmt, fmtF0, fmtF1]
      · have hge1 : fvGe (FVal.fin (q / 1024)) (.fin 1024) = true := by
          rw [fvGe_fin]
          exact decide_eq_true (le_of_not_lt h3)
        have hd1 : fvDiv1024 (FVal.fin (q / 1024)) = FVal.fin (q / 1024 / 1024) := rfl
        by_cases h4 : q / 1024 / 1024 < 1024
        · have hl : ladder (FVal.fin (q / 1024)) 0 = (FVal.fin (q / 1024 / 1024), 1) := by
            rw [ladder_step hge1 (by omega), hd1]
            apply ladder_stop
            rw [fvGe_fin]
            simp [not_le.mpr h4]
          simp [h1, h2, h3, h4, hd, hl, fvGe_fin, scaleFmt, fmtF0, fmtF1]
        · have hge2 : fvGe (FVal.fin (q / 1024 / 1024)) (.fin 1024) = true := by
            rw [fvGe_fin]
            exact decide_eq_true (le_of_not_lt h4)
          have hd2 : fvDiv1024 (FVal.fin (q / 1024 / 1024)) = FVal.fin (q / 1024 / 1024 / 1024) := rfl
          have hl : ladder (FVal.fin (q / 1024)) 0 = (FVal.fin (q / 1024 / 1024 / 1024), 2) := by
            rw [ladder_step hge1 (by omega), hd1, ladder_step hge2 (by omega), hd2]
            exact ladder_stop (by simp)
          simp [h1, h2, h3, h4, hd, hl, fvGe_fin, scaleFmt, fmtF0, fmtF1]

/-- Claim C10: human_bps is total on every modelled f64 input: the
escalation loop never raises the unit index above 2 from its start at 0,
NaN fails every threshold comparison and comes out formatted with the
KB/s unit, and positive infinity climbs the full ladder and comes out
formatted with the GB/s unit. -/
theorem C10_total_on_nan_and_inf :
    human_bps FVal.nan = "NaN KB/s" ∧ human_bps (FVal.inf true) = "inf GB/s" ∧
    ∀ v : FVal, (ladder v 0).2 ≤ 2 := by
  refine ⟨?_, ?_, ?_⟩
  · have e4 : ladder FVal.nan 0 = (FVal.nan, 0) :=
      ladder_stop (by simp [show fvGe FVal.nan (FVal.fin 1024) = false from rfl])
    unfold human_bps
    have ed : fvDiv1024 FVal.nan = FVal.nan := rfl
    rw [ed, e4]
    rfl
  · have i4 : ladder (FVal.inf true) 0 = (FVal.inf true, 2) := by
      rw [ladder_step (show fvGe (FVal.inf true) (FVal.fin 1024) = true from rfl) (by omega),
        (show fvDiv1024 (FVal.inf true) = FVal.inf true from rfl),
        ladder_step (show fvGe (FVal.inf true) (FVal.fin 1024) = true from rfl) (by omega),
        (show fvDiv1024 (FVal.inf true) = FVal.inf true from rfl)]
      exact ladder_stop (by simp)
    unfold human_bps
    have id1 : fvDiv1024 (FVal.inf true) = FVal.inf true := rfl
    rw [id1, i4]
    rfl
  · intro v
    by_cases hg0 : fvGe v (.fin 1024) = true
    · rw [ladder_step hg0 (by omega)]
      by_cases hg1 : fvGe (fvDiv1024 v) (.fin 1024) = true
      · rw [ladder_step hg1 (by omega), ladder_stop (by simp)]
      · rw [ladder_stop (by simp [hg1])]
        norm_num
    · rw [ladder_stop (by simp [hg0])]
      norm_num

/-- Claim C6 counterexample: sorting three rows with totals 1, NaN, 5
returns them unchanged, so the two finite-total rows come out with 1
before 5 - the wrong descending order. A NaN-total row standing between
two finite rows stops the insertion shifting, so finite-total rows do not
always retain their correct descending relative order. -/
theorem C6_finite_pair_loses_order :
    ¬ (sortRows [⟨"a", .fin 1, .fin 0, 0, 0, 0, 0⟩, ⟨"n", .nan, .fin 0, 0, 0, 0, 0⟩,
        ⟨"b", .fin 5, .fin 0, 0, 0, 0, 0⟩]).Pairwise
      (fun a b => ∀ qa qb : ℚ, rowTot a = .fin qa → rowTot b = .fin qb → qb ≤ qa) := by
  intro h
  rw [show sortRows [⟨"a", .fin 1, .fin 0, 0, 0, 0, 0⟩, ⟨"n", .nan, .fin 0, 0, 0, 0, 0⟩,
        ⟨"b", .fin 5, .fin 0, 0, 0, 0, 0⟩]
      = [⟨"a", .fin 1, .fin 0, 0, 0, 0, 0⟩, ⟨"n", .nan, .fin 0, 0, 0, 0, 0⟩,
        ⟨"b", .fin 5, .fin 0, 0, 0, 0, 0⟩] from rfl] at h
  have h15 := (List.pairwise_cons.mp h).1 ⟨"b", .fin 5, .fin 0, 0, 0, 0, 0⟩ (by simp)
    (1 + 0) (5 + 0) rfl rfl
  norm_num at h15

/-- Claim C6 amended: the list collect returns is pairwise sorted in
descending order of combined throughput (every total it produces is
finite), and a comparison whose operands include a NaN total - the
undefined-order case - yields Equal instead of aborting the sort; but
when a NaN-total row stands between finite-total rows, those rows need
not retain their correct relative order. -/
theorem C6_collect_sorted_descending :
    (∀ (net : Networks) (e : ℚ) (sv : Bool), (collect net e sv).Pairwise rowGe) ∧
    (∀ a b : RowData, rowTot a = .nan ∨ rowTot b = .nan → cmpRows a b = Ordering.eq) := by
  constructor
  · intro net e sv
    unfold collect
    exact sortRows_sorted _ (collectRowsAux_finTot _ _)
  · intro a b h
    unfold cmpRows
    rcases h with h | h
    · rw [h]
      cases hb : rowTot b <;> rfl
    · rw [h]
      cases ha : rowTot a <;> rfl

/-- Witness for the amended Claim C6 at concrete inputs. -/
theorem C6_collect_sorted_descending_witness :
    (collect [("eth0", ⟨2048, 0, 0, 0, 0, 0⟩), ("wlan0", ⟨0, 1024, 0, 0, 0, 0⟩)]
      1 false).Pairwise rowGe ∧
    cmpRows ⟨"n", .nan, .fin 0, 0, 0, 0, 0⟩ ⟨"a", .fin 1, .fin 0, 0, 0, 0, 0⟩ = Ordering.eq :=
  ⟨C6_collect_sorted_descending.1 _ 1 false,
   C6_collect_sorted_descending.2 _ _ (Or.inl rfl)⟩

/-- Claim C7: a non-positive elapsed value is clamped to 1 before any
division, so collect on elapsedSeconds <= 0 returns exactly the rows of
collect on elapsedSeconds = 1 over the same snapshot. -/
theorem C7_nonpositive_elapsed_clamped (net : Networks) (e : ℚ) (sv : Bool) (h : e ≤ 0) :
    collect net e sv = collect net 1 sv := by
  unfold collect
  rw [if_pos h, if_neg (by norm_num : ¬ (1 : ℚ) ≤ 0)]

/-- Witness for Claim C7 at a concrete input. -/
theorem C7_nonpositive_elapsed_clamped_witness :
    collect [("eth0", ⟨1024, 512, 3, 4, 5, 6⟩)] 0 false
      = collect [("eth0", ⟨1024, 512, 3, 4, 5, 6⟩)] 1 false :=
  C7_nonpositive_elapsed_clamped _ 0 false le_rfl

/-- Claim C8: every row collect returns carries nonnegative finite rx and
tx rates, for every counter-source state and every elapsed value
including non-positive ones: each rate is a nonnegative counter delta
divided by the clamped, hence positive, elapsed time. -/
theorem C8_rates_nonneg (net : Networks) (e : ℚ) (sv : Bool) (r : RowData)
    (hr : r ∈ collect net e sv) :
    (∃ a : ℚ, 0 ≤ a ∧ r.rx_bps = .fin a) ∧ (∃ b : ℚ, 0 ≤ b ∧ r.tx_bps = .fin b) := by
  unfold collect at hr
  exact collectRowsAux_shape net _ (collect_interval_pos e) r ((sortRows_perm _).mem_iff.mp hr)

/-- Witness for Claim C8 at a concrete input. -/
theorem C8_rates_nonneg_witness :
    (∃ a : ℚ, 0 ≤ a ∧ (⟨"eth0", .fin 1024, .fin 512, 3, 4, 5, 6⟩ : RowData).rx_bps = .fin a) ∧
    (∃ b : ℚ, 0 ≤ b ∧ (⟨"eth0", .fin 1024, .fin 512, 3, 4, 5, 6⟩ : RowData).tx_bps = .fin b) :=
  C8_rates_nonneg [("eth0", ⟨1024, 512, 3, 4, 5, 6⟩)] 1 false _
    (by norm_num [collect, collectRowsAux, sortRows, insertR, skip_test_false])

/-- Claim C9: the configuration stubs have no observable effect: collect
ignores show_virtual entirely; the loop never changes its mutable locals,
so refresh_ms and show_virtual stay at their initial values; a keypress
other than the quit key drives the loop exactly like an idle poll; and
refresh_ms influences only the header title text, never the table body. -/
theorem C9_config_stubs_inert :
    (∀ (net : Networks) (e : ℚ), collect net e true = collect net e false) ∧
    (∀ (ticks : List TickIn) (st : LoopSt), (runLoop st ticks).finalSt = st) ∧
    (∀ (st : LoopSt) (t : TickIn) (rest : List TickIn) (c : Char), c ≠ 'q' →
      runLoop st ({ t with ev := .key c } :: rest)
        = runLoop st ({ t with ev := .idle } :: rest)) ∧
    (∀ (r1 r2 : ℕ) (rows : List RowData),
      (renderFrame r1 rows).tableRows = (renderFrame r2 rows).tableRows) := by
  refine ⟨fun net e => rfl, runLoop_finalSt, ?_, fun r1 r2 rows => rfl⟩
  intro st t rest c hc
  rw [runLoop, runLoop]
  simp [evErr, evQuit, hc]

/-- Witness for Claim C9 at concrete inputs. -/
theorem C9_config_stubs_inert_witness :
    collect [] 1 true = collect [] 1 false ∧
    (runLoop ⟨500, false, 0⟩ []).finalSt = ⟨500, false, 0⟩ ∧
    runLoop ⟨500, false, 0⟩ [⟨1, [], .key 'x', true⟩]
      = runLoop ⟨500, false, 0⟩ [⟨1, [], .idle, true⟩] ∧
    (renderFrame 500 []).tableRows = (renderFrame 250 []).tableRows :=
  ⟨C9_config_stubs_inert.1 [] 1, C9_config_stubs_inert.2.1 [] _,
   C9_config_stubs_inert.2.2.1 ⟨500, false, 0⟩ ⟨1, [], .idle, true⟩ [] 'x' (by decide),
   C9_config_stubs_inert.2.2.2 500 250 []⟩
